import Mathlib

/-!
Verification development for the dual-variant OCR pipeline (`ocr.py`).

The pipeline is embedded shallowly:
* the external image primitives (PIL) and the external OCR engine are
  parameters (`ImgOps`, `engine`), since the repository treats them as
  black boxes;
* confidence scores are modelled as rationals;
* the file system is a partial map from paths to abstract contents;
* the two diagnostic/result channels are explicit lists of records.
-/

namespace OCRPipeline

/-- A filesystem path (a Python `str`). -/
abbrev PathStr := String

/-- The file system: a partial map from paths to abstract file contents. -/
abbrev FS := PathStr → Option Nat

/-- Write a file (as `img.save(path)` does). -/
def FS.write (fs : FS) (p : PathStr) (c : Nat) : FS :=
  fun q => if q = p then some c else fs q

/-- Delete a file (as `os.remove(path)` does). -/
def FS.removeFile (fs : FS) (p : PathStr) : FS :=
  fun q => if q = p then none else fs q

/-- One raw OCR detection: `line[0]` is the polygon, `line[1][0]` the text,
`line[1][1]` the confidence score. -/
structure RawDetection where
  coords : List (ℚ × ℚ)
  text : String
  confidence : ℚ
deriving DecidableEq, Repr

/-- The value of `ocr.ocr(path)` as the selection logic observes it.
`none` models Python `None`; `some inner` models the one-element list
`[inner]` where `inner` is itself `None` (`some none`) or a list of
detections (`some (some lines)`). -/
abbrev PyOCRResult := Option (Option (List RawDetection))

/-- An in-memory PIL image: dimensions plus an abstract content tag. -/
structure Image where
  width : Nat
  height : Nat
  tag : Nat
deriving DecidableEq, Repr

/-- The external image primitives used by `ocr.py` (PIL / os.path),
each fallible call returning `Except`. -/
structure ImgOps where
  splitext : String → String × String
  openImg : PathStr → Except String Image
  resize : Image → Nat → Nat → Except String Image
  enhance : Image → Except String Image
  invert : Image → Except String Image
  save : Image → PathStr → Except String Nat
  grayPixels : PathStr → Except String (List Nat)

/-- `np.histogram(img_array, bins=256, range=(0, 256))[0]`: the 256-bucket
intensity histogram (grayscale pixels are in `0..255`). -/
def pyHistogram (pixels : List Nat) : List Nat :=
  (List.range 256).map fun b => pixels.countP fun p => decide (p = b)

/-- The body of `detect_text_color`: histogram, `dark_pixels = sum(hist[:128])`,
`light_pixels = sum(hist[128:])`, `return light_pixels < dark_pixels`. -/
def detectFromPixels (pixels : List Nat) : Bool :=
  let hist := pyHistogram pixels
  let dark_pixels := (hist.take 128).sum
  let light_pixels := (hist.drop 128).sum
  decide (light_pixels < dark_pixels)

/-- `detect_text_color`: on any read/decoding error it returns `False`
(DarkTextOnLight) and prints a warning to stderr (the second component). -/
def detect_text_color (loadGray : PathStr → Except String (List Nat))
    (image_path : PathStr) : Bool × List String :=
  match loadGray image_path with
  | .ok pixels => (detectFromPixels pixels, [])
  | .error e => (false, ["Warning: Error detecting text color: " ++ e])

/-- The resize-target computation of `preprocess_image`:
`ratio = min(max_width / width, max_height / height)`,
`new_width = int(width * ratio)`, `new_height = int(height * ratio)`,
applied only when a dimension exceeds its bound. -/
def targetDims (w h : Nat) (mw mh : Int) : Nat × Nat :=
  if (w : Int) > mw ∨ (h : Int) > mh then
    let ratio : ℚ := min ((mw : ℚ) / (w : ℚ)) ((mh : ℚ) / (h : ℚ))
    (⌊(w : ℚ) * ratio⌋.toNat, ⌊(h : ℚ) * ratio⌋.toNat)
  else (w, h)

/-- `f"{file_name}_enhanced{file_ext}"` for the given source path. -/
def enhancedPath (ops : ImgOps) (p : PathStr) : PathStr :=
  (ops.splitext p).1 ++ "_enhanced" ++ (ops.splitext p).2

/-- `f"{file_name}_inverted{file_ext}"` for the given source path. -/
def invertedPath (ops : ImgOps) (p : PathStr) : PathStr :=
  (ops.splitext p).1 ++ "_inverted" ++ (ops.splitext p).2

/-- The enhance / invert / save tail of the `try:` body of
`preprocess_image`, starting from the (possibly resized) image `img2`. -/
def variantSaves (ops : ImgOps) (fs : FS) (image_path : PathStr)
    (img2 : Image) (invert_needed : Bool) (warns : List String) :
    Except String (PathStr × PathStr × Bool) × FS × List String :=
  match ops.enhance img2 with
  | .error e => (.error e, fs, warns)
  | .ok img_enhanced =>
    match ops.invert img2 with
    | .error e => (.error e, fs, warns)
    | .ok img_inverted =>
      match ops.enhance img_inverted with
      | .error e => (.error e, fs, warns)
      | .ok img_inverted_enhanced =>
        match ops.save img_enhanced (enhancedPath ops image_path) with
        | .error e => (.error e, fs, warns)
        | .ok c1 =>
          let fs1 := fs.write (enhancedPath ops image_path) c1
          match ops.save img_inverted_enhanced (invertedPath ops image_path) with
          | .error e => (.error e, fs1, warns)
          | .ok c2 =>
            (.ok (enhancedPath ops image_path, invertedPath ops image_path,
                invert_needed),
              fs1.write (invertedPath ops image_path) c2, warns)

/-- The resize stage of `preprocess_image`: resample only when a dimension
exceeds its bound. -/
def resizeStep (ops : ImgOps) (img : Image) (mw mh : Int) :
    Except String Image :=
  if (img.width : Int) > mw ∨ (img.height : Int) > mh then
    ops.resize img (targetDims img.width img.height mw mh).1
      (targetDims img.width img.height mw mh).2
  else .ok img

/-- The `try:` body of `preprocess_image`: open, resize if needed, detect
text color on the original path, then `variantSaves`. Returns the outcome
of the body, the file system after the writes that actually happened, and
the stderr lines so far. -/
def preprocess_core (ops : ImgOps) (fs : FS) (image_path : PathStr)
    (mw mh : Int) :
    Except String (PathStr × PathStr × Bool) × FS × List String :=
  match ops.openImg image_path with
  | .error e => (.error e, fs, [])
  | .ok img =>
    match resizeStep ops img mw mh with
    | .error e => (.error e, fs, [])
    | .ok img2 =>
      variantSaves ops fs image_path img2
        (detect_text_color ops.grayPixels image_path).1
        (detect_text_color ops.grayPixels image_path).2

/-- `preprocess_image`: on any failure of the body it prints the error to
stderr and returns `(image_path, None, False)`. -/
def preprocess_image (ops : ImgOps) (fs : FS) (image_path : PathStr)
    (mw mh : Int) : (PathStr × Option PathStr × Bool) × FS × List String :=
  match preprocess_core ops fs image_path mw mh with
  | (.ok t, fs1, warns) => ((t.1, some t.2.1, t.2.2), fs1, warns)
  | (.error e, fs1, warns) =>
      ((image_path, none, false), fs1,
        warns ++ ["Error preprocessing image: " ++ e])

/-- Python truthiness of `result and result[0]` for an OCR result value. -/
def truthy0 : PyOCRResult → Bool
  | some (some (_ :: _)) => true
  | _ => false

/-- `result[0]` as a list of detections (meaningful when `truthy0`). -/
def lines0 : PyOCRResult → List RawDetection
  | some (some l) => l
  | _ => []

/-- The selection logic of `process_image` (lines 99-126 of `ocr.py`),
verbatim: the three truthiness branches, then counts, confidence sums and
the inversion bias, else `[None]`. -/
def selectResult (result_enhanced result_inverted : PyOCRResult)
    (invert_needed : Bool) : PyOCRResult :=
  if truthy0 result_enhanced && !(truthy0 result_inverted) then
    result_enhanced
  else if truthy0 result_inverted && !(truthy0 result_enhanced) then
    result_inverted
  else if truthy0 result_enhanced && truthy0 result_inverted then
    let count_enhanced := (lines0 result_enhanced).length
    let count_inverted := (lines0 result_inverted).length
    let conf_enhanced : ℚ :=
      if 0 < count_enhanced then
        ((lines0 result_enhanced).map (·.confidence)).sum else 0
    let conf_inverted : ℚ :=
      if 0 < count_inverted then
        ((lines0 result_inverted).map (·.confidence)).sum else 0
    if invert_needed && decide (0 < count_inverted) then result_inverted
    else if count_inverted > count_enhanced then result_inverted
    else if count_enhanced > count_inverted then result_enhanced
    else if conf_inverted > conf_enhanced then result_inverted
    else result_enhanced
  else some none

/-- One element of the JSON array printed on stdout. -/
inductive OutputRecord where
  | det (coords : List (ℚ × ℚ)) (text : String) (confidence : ℚ)
  | failure (msg : String)
deriving DecidableEq, Repr

/-- Whether an output record is an error object `{"error": ...}`. -/
def OutputRecord.isError : OutputRecord → Bool
  | .failure _ => true
  | _ => false

/-- The JSON-conversion loop of `process_image`:
`if result and result[0]: for line in result[0]: ...`. -/
def renderResult (result : PyOCRResult) : List OutputRecord :=
  match result with
  | some (some lines) =>
      lines.map fun line => .det line.coords line.text line.confidence
  | _ => []

/-- The observable outcome of `process_image`: the stdout JSON payload,
the final file system, and the stderr lines. -/
structure RunOut where
  stdout : List OutputRecord
  fs : FS
  stderr : List String

/-- `process_image`: preprocess, run the engine on both variants, delete
the temporary files, select the best result and print it. Any raise from
an engine call lands in the top-level `except`, which prints a one-element
error payload (and therefore skips the deletions). -/
def process_image (ops : ImgOps)
    (engine : PathStr → Except String PyOCRResult)
    (fs : FS) (image_path : PathStr) (mw mh : Int) : RunOut :=
  let pre := preprocess_image ops fs image_path mw mh
  let enhanced_path := pre.1.1
  let inverted_path := pre.1.2.1
  let invert_needed := pre.1.2.2
  let fs1 := pre.2.1
  let errs1 := pre.2.2
  match engine enhanced_path with
  | .error e => ⟨[.failure e], fs1, errs1⟩
  | .ok result_enhanced =>
    let stepI : Except String PyOCRResult :=
      match inverted_path with
      | some ip => engine ip
      | none => .ok none
    match stepI with
    | .error e => ⟨[.failure e], fs1, errs1⟩
    | .ok result_inverted =>
      let fs2 :=
        if enhanced_path ≠ image_path ∧ (fs1 enhanced_path).isSome then
          fs1.removeFile enhanced_path
        else fs1
      let fs3 :=
        match inverted_path with
        | some ip => if (fs2 ip).isSome then fs2.removeFile ip else fs2
        | none => fs2
      ⟨renderResult (selectResult result_enhanced result_inverted invert_needed),
        fs3, errs1⟩

/-- The effective `max_width` / `max_height` computation of `__main__`:
`sys.argv[i]` parsed as an integer if present, silently defaulting to
`1600` when absent or unparsable. -/
def effBound (parse : String → Option Int) (argv : List String) (i : Nat) :
    Int :=
  match argv[i]? with
  | some s => (parse s).getD 1600
  | none => 1600

/-- The observable outcome of the whole program. -/
structure MainOut where
  stdout : List OutputRecord
  exitCode : Nat
  fs : FS
  stderr : List String

/-- The `__main__` block: missing path argument prints the error payload
and exits with status 1; otherwise the pipeline runs and the process
exits with status 0. -/
def main_run (parse : String → Option Int) (ops : ImgOps)
    (engine : PathStr → Except String PyOCRResult)
    (fs : FS) (argv : List String) : MainOut :=
  if argv.length < 2 then
    ⟨[.failure "No image path provided"], 1, fs, []⟩
  else
    let image_path := argv.getD 1 ""
    let r := process_image ops engine fs image_path
      (effBound parse argv 2) (effBound parse argv 3)
    ⟨r.stdout, 0, r.fs, r.stderr⟩

/-! ### The spec's tri-state selection rule (for the refinement claim C1) -/

/-- Which batch the Arbiter selects. -/
inductive Choice where
  | enhanced
  | inverted
  | empty
deriving DecidableEq, Repr

/-- Whether a spec-level batch (`none` = Absent, `some []` = Empty) has
detections. -/
def hasDet : Option (List RawDetection) → Bool
  | some (_ :: _) => true
  | _ => false

/-- Modelled from the spec's words (§4.3 step 5 / claim C1): the exact
selection precedence over the explicit `Absent | Empty | Populated`
tri-state. -/
def selectSpec (bE bI : Option (List RawDetection)) (bias : Bool) : Choice :=
  if hasDet bE && !(hasDet bI) then .enhanced
  else if hasDet bI && !(hasDet bE) then .inverted
  else if hasDet bE && hasDet bI then
    let countE := (bE.getD []).length
    let countI := (bI.getD []).length
    let confE : ℚ := ((bE.getD []).map (·.confidence)).sum
    let confI : ℚ := ((bI.getD []).map (·.confidence)).sum
    if bias && decide (0 < countI) then .inverted
    else if countI > countE then .inverted
    else if countE > countI then .enhanced
    else if confI > confE then .inverted
    else .enhanced
  else .empty

/-- Collapse a Python OCR result value to the spec's tri-state batch. -/
def toBatch : PyOCRResult → Option (List RawDetection)
  | none => none
  | some none => some []
  | some (some l) => some l

/-- Interpret a spec-level choice back as the Python value the code
assigns to `result`. -/
def choiceValue (rE rI : PyOCRResult) : Choice → PyOCRResult
  | .enhanced => rE
  | .inverted => rI
  | .empty => some none

/-- An engine that never raises (it may still return unusable results). -/
def engineTotal (engine : PathStr → Except String PyOCRResult) : Prop :=
  ∀ p, ∃ r, engine p = .ok r

/-! ### Counting lemmas for the histogram detector -/

lemma countP_lt_succ (l : List Nat) (n : Nat) :
    l.countP (fun p => decide (p < n + 1)) =
      l.countP (fun p => decide (p < n)) + l.countP (fun p => decide (p = n)) := by
  induction l with
  | nil => simp
  | cons a l ih =>
    simp only [List.countP_cons, ih]
    by_cases h1 : a < n
    · have h2 : a < n + 1 := Nat.lt_succ_of_lt h1
      have h3 : ¬ a = n := by omega
      simp [h1, h2, h3]
      omega
    · by_cases h2 : a = n
      · subst h2
        simp [Nat.lt_succ_self, h1]
        omega
      · have h3 : ¬ a < n + 1 := by omega
        simp [h1, h2, h3]

lemma sum_range_count (l : List Nat) (n : Nat) :
    ((List.range n).map (fun b => l.countP (fun p => decide (p = b)))).sum
      = l.countP (fun p => decide (p < n)) := by
  induction n with
  | zero =>
    simp [List.countP_eq_zero]
  | succ n ih =>
    rw [List.range_succ, List.map_append, List.sum_append, ih,
      countP_lt_succ]
    simp

lemma hist_take_sum (l : List Nat) :
    ((pyHistogram l).take 128).sum = l.countP (fun p => decide (p < 128)) := by
  unfold pyHistogram
  rw [← List.map_take, List.take_range]
  exact sum_range_count l 128

lemma countP_split_at (l : List Nat) (n : Nat) :
    l.countP (fun p => decide (p < n)) + l.countP (fun p => decide (n ≤ p))
      = l.length := by
  induction l with
  | nil => simp
  | cons a l ih =>
    simp only [List.countP_cons, List.length_cons]
    by_cases h1 : a < n
    · have h2 : ¬ n ≤ a := by omega
      simp [h1, h2]
      omega
    · have h2 : n ≤ a := by omega
      simp [h1, h2]
      omega

lemma hist_drop_sum (l : List Nat) (h : ∀ x ∈ l, x < 256) :
    ((pyHistogram l).drop 128).sum = l.countP (fun p => decide (128 ≤ p)) := by
  have htot : (pyHistogram l).sum = l.countP (fun p => decide (p < 256)) := by
    unfold pyHistogram
    exact sum_range_count l 256
  have hsum := List.sum_take_add_sum_drop (pyHistogram l) 128
  have h1 := hist_take_sum l
  have hlen : l.countP (fun p => decide (p < 256)) = l.length := by
    rw [List.countP_eq_length]
    intro a ha
    simpa using h a ha
  have hcomp := countP_split_at l 128
  omega

lemma detectFromPixels_eq (l : List Nat) (h : ∀ x ∈ l, x < 256) :
    detectFromPixels l =
      decide (l.countP (fun p => decide (128 ≤ p)) <
        l.countP (fun p => decide (p < 128))) := by
  show decide (((pyHistogram l).drop 128).sum < ((pyHistogram l).take 128).sum)
      = _
  rw [hist_take_sum l, hist_drop_sum l h]

/-- Claim C4: for every readable image (a list of grayscale intensities,
each below 256), the Color-Bias Detector sums histogram buckets 0-127 and
128-255 and returns LightTextOnDark (`true`) exactly when the light mass
is strictly below the dark mass; on equality it returns DarkTextOnLight
(`false`). -/
theorem detector_histogram_threshold (l : List Nat)
    (h : ∀ x ∈ l, x < 256) :
    (detectFromPixels l = true ↔
      l.countP (fun p => decide (128 ≤ p)) <
        l.countP (fun p => decide (p < 128))) ∧
    (l.countP (fun p => decide (128 ≤ p)) =
        l.countP (fun p => decide (p < 128)) →
      detectFromPixels l = false) := by
  constructor
  · rw [detectFromPixels_eq l h]
    exact decide_eq_true_iff
  · intro he
    rw [detectFromPixels_eq l h, he]
    simp

/-- Witness for C4: `[0, 0, 200]` has dark mass 2 and light mass 1, so the
Detector reports LightTextOnDark. -/
theorem detector_histogram_threshold_witness :
    detectFromPixels [0, 0, 200] = true :=
  (detector_histogram_threshold [0, 0, 200] (by decide)).1.mpr (by decide)

/-! ### The selection rule (claims C1, C3, C9) -/

/-- A concrete detection used in demonstration batches. -/
def demoDet (k : Nat) : RawDetection :=
  ⟨[((k : ℚ), (k : ℚ))], "t", (1 : ℚ) / 2⟩

/-- A concrete batch of `n` detections. -/
def demoBatch (n : Nat) : List RawDetection :=
  (List.range n).map demoDet

/-- Claim C1: the code's selection logic implements the spec's exact
precedence (enhanced-only, inverted-only, both-populated with bias /
count / confidence / default tie-breaks, else empty), and in particular
with `countE = 5`, `countI = 3` and LightTextOnDark bias it selects the
inverted batch. -/
theorem selection_rule_refines_spec :
    (∀ rE rI bias, selectResult rE rI bias =
      choiceValue rE rI (selectSpec (toBatch rE) (toBatch rI) bias)) ∧
    selectResult (some (some (demoBatch 5))) (some (some (demoBatch 3))) true
      = some (some (demoBatch 3)) := by
  constructor
  · intro rE rI bias
    rcases rE with _ | (_ | (_ | ⟨e, es⟩)) <;>
      rcases rI with _ | (_ | (_ | ⟨i, is⟩)) <;>
        simp [selectResult, selectSpec, toBatch, choiceValue, truthy0,
          hasDet, lines0]
    split_ifs <;> rfl
  · rfl

/-! ### Structure of the preprocessing body -/

/-- When the save tail succeeds, it returns the two derived variant paths,
the verdict and the warnings it was given. -/
lemma variantSaves_ok_shape (ops : ImgOps) (fs : FS) (p : PathStr)
    (img2 : Image) (b : Bool) (warns : List String)
    (t : PathStr × PathStr × Bool) (fs1 : FS) (w : List String)
    (hc : variantSaves ops fs p img2 b warns = (.ok t, fs1, w)) :
    t = (enhancedPath ops p, invertedPath ops p, b) ∧ w = warns := by
  unfold variantSaves at hc
  repeat' split at hc
  all_goals simp_all

/-- Frame property of the save tail: it only writes to the two derived
variant paths. -/
lemma variantSaves_frame (ops : ImgOps) (fs : FS) (p : PathStr)
    (img2 : Image) (b : Bool) (warns : List String) (q : PathStr)
    (h1 : q ≠ enhancedPath ops p) (h2 : q ≠ invertedPath ops p) :
    (variantSaves ops fs p img2 b warns).2.1 q = fs q := by
  unfold variantSaves
  repeat' split
  all_goals simp [FS.write, h1, h2]

/-- When the `try:` body of `preprocess_image` succeeds, it returns the two
derived variant paths and the Detector's verdict, and the warnings are the
Detector's. -/
lemma core_ok_shape (ops : ImgOps) (fs : FS) (p : PathStr) (mw mh : Int)
    (t : PathStr × PathStr × Bool) (fs1 : FS) (w : List String)
    (hc : preprocess_core ops fs p mw mh = (.ok t, fs1, w)) :
    t = (enhancedPath ops p, invertedPath ops p,
      (detect_text_color ops.grayPixels p).1) ∧
    w = (detect_text_color ops.grayPixels p).2 := by
  unfold preprocess_core at hc
  cases ho : ops.openImg p <;> rw [ho] at hc <;> try simp only [] at hc
  case error e => simp at hc
  case ok img =>
    cases hr : resizeStep ops img mw mh <;> rw [hr] at hc <;>
      try simp only [] at hc
    case error e => simp at hc
    case ok img2 => exact variantSaves_ok_shape ops fs p _ _ _ t fs1 w hc

/-- Frame property of the preprocessing body: it only writes to the two
derived variant paths. -/
lemma core_frame (ops : ImgOps) (fs : FS) (p : PathStr) (mw mh : Int)
    (q : PathStr) (h1 : q ≠ enhancedPath ops p)
    (h2 : q ≠ invertedPath ops p) :
    (preprocess_core ops fs p mw mh).2.1 q = fs q := by
  unfold preprocess_core
  cases ho : ops.openImg p <;> try simp only []
  case ok img =>
    cases hr : resizeStep ops img mw mh <;> try simp only []
    case ok img2 => exact variantSaves_frame ops fs p _ _ _ q h1 h2

/-! ### The derived variant paths are distinct from the source path -/

lemma enhancedPath_ne (ops : ImgOps) (p : PathStr)
    (h : (ops.splitext p).1 ++ (ops.splitext p).2 = p) :
    enhancedPath ops p ≠ p := by
  intro hc
  have hl : (enhancedPath ops p).length = p.length := congrArg String.length hc
  rw [enhancedPath, String.length_append, String.length_append] at hl
  have hp : (ops.splitext p).1.length + (ops.splitext p).2.length = p.length := by
    have := congrArg String.length h
    simpa [String.length_append] using this
  have h9 : ("_enhanced" : String).length = 9 := by decide
  omega

lemma invertedPath_ne (ops : ImgOps) (p : PathStr)
    (h : (ops.splitext p).1 ++ (ops.splitext p).2 = p) :
    invertedPath ops p ≠ p := by
  intro hc
  have hl : (invertedPath ops p).length = p.length := congrArg String.length hc
  rw [invertedPath, String.length_append, String.length_append] at hl
  have hp : (ops.splitext p).1.length + (ops.splitext p).2.length = p.length := by
    have := congrArg String.length h
    simpa [String.length_append] using this
  have h9 : ("_inverted" : String).length = 9 := by decide
  omega

lemma enhanced_ne_inverted (ops : ImgOps) (p : PathStr) :
    enhancedPath ops p ≠ invertedPath ops p := by
  intro hc
  have hd := congrArg String.data hc
  rw [enhancedPath, invertedPath, String.data_append, String.data_append,
    String.data_append, String.data_append] at hd
  have h1 := List.append_cancel_right hd
  have h2 := List.append_cancel_left h1
  exact absurd h2 (by decide)

/-! ### Frame property of the whole invocation (claim C10) -/

/-- `process_image` touches no path other than the two derived variant
paths. -/
lemma process_frame (ops : ImgOps)
    (engine : PathStr → Except String PyOCRResult)
    (fs : FS) (p : PathStr) (mw mh : Int) (q : PathStr)
    (h1 : q ≠ enhancedPath ops p) (h2 : q ≠ invertedPath ops p) :
    (process_image ops engine fs p mw mh).fs q = fs q := by
  have hcf := core_frame ops fs p mw mh q h1 h2
  unfold process_image preprocess_image
  rcases hc : preprocess_core ops fs p mw mh with ⟨ex, fs1, w⟩
  rw [hc] at hcf
  have hcf1 : fs1 q = fs q := hcf
  cases ex with
  | error e =>
    cases he : engine p with
    | error e2 => simpa [he] using hcf1
    | ok rE => simpa [he] using hcf1
  | ok t =>
    obtain ⟨ht, -⟩ := core_ok_shape ops fs p mw mh t fs1 w hc
    subst ht
    cases he : engine (enhancedPath ops p) with
    | error e2 => simpa [he] using hcf1
    | ok rE =>
      cases he2 : engine (invertedPath ops p) with
      | error e2 => simpa [he, he2] using hcf1
      | ok rI =>
        simp only [he, he2]
        split_ifs <;> simpa [he, FS.removeFile, h1, h2] using hcf1

/-- Claim C10: the file at the original source path is never deleted or
overwritten, and in fact nothing outside the two suffix-derived variant
paths is touched; both derived paths differ from the source path. -/
theorem source_file_never_touched (ops : ImgOps)
    (engine : PathStr → Except String PyOCRResult)
    (fs : FS) (src : PathStr) (mw mh : Int)
    (h : (ops.splitext src).1 ++ (ops.splitext src).2 = src) :
    (process_image ops engine fs src mw mh).fs src = fs src ∧
    enhancedPath ops src ≠ src ∧ invertedPath ops src ≠ src ∧
    (∀ q, q ≠ enhancedPath ops src → q ≠ invertedPath ops src →
      (process_image ops engine fs src mw mh).fs q = fs q) := by
  refine ⟨?_, enhancedPath_ne ops src h, invertedPath_ne ops src h, ?_⟩
  · exact process_frame ops engine fs src mw mh src
      (Ne.symm (enhancedPath_ne ops src h))
      (Ne.symm (invertedPath_ne ops src h))
  · intro q hq1 hq2
    exact process_frame ops engine fs src mw mh q hq1 hq2

/-! ### Concrete collaborators for witnesses and counterexamples -/

/-- Concrete image primitives in which every operation succeeds. -/
def cOps : ImgOps where
  splitext := fun s => (s, "")
  openImg := fun _ => .ok ⟨10, 10, 0⟩
  resize := fun i _ _ => .ok i
  enhance := fun i => .ok i
  invert := fun i => .ok i
  save := fun _ _ => .ok 7
  grayPixels := fun _ => .ok [0]

/-- Witness for C10: a concrete run (with a raising engine, the worst
case) leaves the source file intact. -/
theorem source_file_never_touched_witness :
    (process_image cOps (fun _ => .error "boom") (fun _ => some 3)
      "img.png" 1600 1600).fs "img.png" = some 3 :=
  (source_file_never_touched cOps (fun _ => .error "boom")
    (fun _ => some 3) "img.png" 1600 1600 (String.append_empty _)).1

/-! ### Claim C2: temporary-file cleanup -/

/-- Counterexample to C2 as stated: in a run where preprocessing succeeds
and the engine then raises, the `_enhanced` (and `_inverted`) temporary
files still exist after the invocation completes, because the deletions
sit after the engine calls inside the same `try:` block. -/
theorem engine_raise_leaks_tempfiles :
    (process_image cOps (fun _ => .error "boom") (fun _ => none)
        "img.png" 1600 1600).fs ("img.png" ++ "_enhanced" ++ "") = some 7 ∧
    (process_image cOps (fun _ => .error "boom") (fun _ => none)
        "img.png" 1600 1600).fs ("img.png" ++ "_inverted" ++ "") = some 7 := by
  constructor <;> rfl

/-- Amended C2: when preprocessing succeeds and neither engine invocation
raises, both variant files are removed before the invocation completes;
when an engine invocation raises, the cleanup is skipped (see the
counterexample). -/
theorem cleanup_when_engine_ok (ops : ImgOps)
    (engine : PathStr → Except String PyOCRResult) (fs : FS)
    (src : PathStr) (mw mh : Int)
    (hs : (ops.splitext src).1 ++ (ops.splitext src).2 = src)
    (htot : engineTotal engine)
    (hok : ∃ t fs1 w, preprocess_core ops fs src mw mh = (.ok t, fs1, w)) :
    (process_image ops engine fs src mw mh).fs (enhancedPath ops src) = none ∧
    (process_image ops engine fs src mw mh).fs (invertedPath ops src) = none := by
  obtain ⟨t, fs1, w, hc⟩ := hok
  obtain ⟨ht, -⟩ := core_ok_shape ops fs src mw mh t fs1 w hc
  subst ht
  obtain ⟨rE, he⟩ := htot (enhancedPath ops src)
  obtain ⟨rI, he2⟩ := htot (invertedPath ops src)
  have hne : enhancedPath ops src ≠ src := enhancedPath_ne ops src hs
  have hei : enhancedPath ops src ≠ invertedPath ops src :=
    enhanced_ne_inverted ops src
  have hie : invertedPath ops src ≠ enhancedPath ops src := Ne.symm hei
  unfold process_image preprocess_image
  rw [hc]
  simp only [he, he2]
  constructor
  · split_ifs with hc1 hc2 <;>
      simp_all [FS.removeFile, hei, hie, hne]
  · split_ifs with hc1 hc2 <;>
      simp_all [FS.removeFile, hei, hie, hne]

/-- Witness for the amended C2: with an all-succeeding engine, a concrete
run deletes both variant files. -/
theorem cleanup_when_engine_ok_witness :
    (process_image cOps (fun _ => .ok (some none)) (fun _ => none)
        "img.png" 1600 1600).fs (enhancedPath cOps "img.png") = none ∧
    (process_image cOps (fun _ => .ok (some none)) (fun _ => none)
        "img.png" 1600 1600).fs (invertedPath cOps "img.png") = none :=
  cleanup_when_engine_ok cOps (fun _ => .ok (some none)) (fun _ => none)
    "img.png" 1600 1600 (String.append_empty _)
    (fun _ => ⟨some none, rfl⟩) ⟨_, _, _, rfl⟩

/-! ### Claims C3 and C9: engine failures and empty batches -/

lemma renderResult_no_error (r : PyOCRResult) :
    ∀ o ∈ renderResult r, o.isError = false := by
  rcases r with _ | (_ | lns)
  · simp [renderResult]
  · simp [renderResult]
  · intro o ho
    simp only [renderResult, List.mem_map] at ho
    obtain ⟨d, -, rfl⟩ := ho
    rfl

/-- When no engine call raises, the stdout payload contains no error
object: it is the rendering of the selected batch. -/
lemma process_stdout_no_error (ops : ImgOps)
    (engine : PathStr → Except String PyOCRResult)
    (fs : FS) (src : PathStr) (mw mh : Int)
    (htot : engineTotal engine) :
    ∀ o ∈ (process_image ops engine fs src mw mh).stdout,
      o.isError = false := by
  unfold process_image
  rcases hp : preprocess_image ops fs src mw mh with ⟨⟨ep, ip, inv⟩, fs1, errs⟩
  obtain ⟨rE, he⟩ := htot ep
  simp only [he]
  cases ip with
  | none => simpa using renderResult_no_error _
  | some ipath =>
    obtain ⟨rI, he2⟩ := htot ipath
    simp only [he2]
    simpa using renderResult_no_error _

/-- Counterexample to C3 as stated: a concrete run in which the enhanced
variant yielded detections but the engine raised on the inverted variant;
the program emits an error payload rather than proceeding with the valid
batch. -/
theorem engine_raise_yields_error_payload :
    (process_image cOps
        (fun p => if p = "img.png" ++ "_enhanced" ++ ""
          then .ok (some (some [⟨[], "t", 1⟩])) else .error "boom2")
        (fun _ => none) "img.png" 1600 1600).stdout
      = [.failure "boom2"] ∧
    ((process_image cOps
        (fun p => if p = "img.png" ++ "_enhanced" ++ ""
          then .ok (some (some [⟨[], "t", 1⟩])) else .error "boom2")
        (fun _ => none) "img.png" 1600 1600).stdout.any
      OutputRecord.isError) = true := by
  constructor <;> rfl

/-- Amended C3: an engine call that returns an unusable (falsy) result is
treated as an empty/absent batch and selection proceeds with the valid
one, and whenever no engine call raises the invocation emits a normal
detection array (no error object); a raising engine call instead reaches
the top-level handler (see the counterexample). -/
theorem unusable_result_treated_empty :
    (∀ rE rI bias, truthy0 rE = true → truthy0 rI = false →
      selectResult rE rI bias = rE) ∧
    (∀ rE rI bias, truthy0 rI = true → truthy0 rE = false →
      selectResult rE rI bias = rI) ∧
    (∀ (ops : ImgOps) (engine : PathStr → Except String PyOCRResult)
        (fs : FS) (src : PathStr) (mw mh : Int), engineTotal engine →
      ∀ o ∈ (process_image ops engine fs src mw mh).stdout,
        o.isError = false) := by
  refine ⟨?_, ?_, ?_⟩
  · intro rE rI bias h1 h2
    simp [selectResult, h1, h2]
  · intro rE rI bias h1 h2
    simp [selectResult, h1, h2]
  · intro ops engine fs src mw mh htot
    exact process_stdout_no_error ops engine fs src mw mh htot

/-- Witness for the amended C3: a populated enhanced batch beats an
unusable (`[None]`) inverted batch. -/
theorem unusable_result_treated_empty_witness :
    selectResult (some (some [demoDet 0])) (some none) true
      = some (some [demoDet 0]) :=
  unusable_result_treated_empty.1 (some (some [demoDet 0])) (some none)
    true rfl rfl

/-- Claim C9: when both recognition batches are empty or absent, the
selected result is the empty `[None]` value and the printed payload is the
empty array; in particular an engine that always returns an empty result
leads to `[]` on stdout. -/
theorem both_empty_gives_empty_output :
    (∀ rE rI bias, truthy0 rE = false → truthy0 rI = false →
      selectResult rE rI bias = some none ∧
      renderResult (selectResult rE rI bias) = []) ∧
    (∀ (ops : ImgOps) (engine : PathStr → Except String PyOCRResult)
        (fs : FS) (src : PathStr) (mw mh : Int),
      (∀ p, engine p = .ok (some none)) →
      (process_image ops engine fs src mw mh).stdout = []) := by
  constructor
  · intro rE rI bias h1 h2
    have hs : selectResult rE rI bias = some none := by
      simp [selectResult, h1, h2]
    exact ⟨hs, by rw [hs]; rfl⟩
  · intro ops engine fs src mw mh hempty
    unfold process_image
    rcases hp : preprocess_image ops fs src mw mh with ⟨⟨ep, ip, inv⟩, fs1, errs⟩
    simp only [hempty]
    cases ip with
    | none => simp [selectResult, truthy0, renderResult]
    | some ipath =>
      simp only [hempty]
      simp [selectResult, truthy0, renderResult]

/-- Witness for C9: two absent batches select the empty result. -/
theorem both_empty_gives_empty_output_witness :
    selectResult none none false = some none ∧
    renderResult (selectResult none none false) = [] :=
  both_empty_gives_empty_output.1 none none false rfl rfl

/-! ### Claim C5: detector failure handling -/

/-- Claim C5: when the grayscale/histogram analysis fails, the Detector
returns DarkTextOnLight (`false`) with the warning on the diagnostic
channel only, and the pipeline continues: the preprocessing result then
carries `invert_needed = false` whatever else happens. -/
theorem detector_failure_defaults_dark :
    (∀ (load : PathStr → Except String (List Nat)) (p : PathStr) m,
      load p = .error m →
      detect_text_color load p =
        (false, ["Warning: Error detecting text color: " ++ m])) ∧
    (∀ (ops : ImgOps) (fs : FS) (src : PathStr) (mw mh : Int) m,
      ops.grayPixels src = .error m →
      (preprocess_image ops fs src mw mh).1.2.2 = false) := by
  constructor
  · intro load p m h
    unfold detect_text_color
    rw [h]
  · intro ops fs src mw mh m h
    unfold preprocess_image
    rcases hc : preprocess_core ops fs src mw mh with ⟨ex, fs1, w⟩
    cases ex with
    | error e => rfl
    | ok t =>
      obtain ⟨ht, -⟩ := core_ok_shape ops fs src mw mh t fs1 w hc
      subst ht
      show (detect_text_color ops.grayPixels src).1 = false
      unfold detect_text_color
      rw [h]

/-- Witness for C5: a concrete failing loader yields the default verdict
and the stderr warning. -/
theorem detector_failure_defaults_dark_witness :
    detect_text_color (fun _ => .error "bad file") "img.png" =
      (false, ["Warning: Error detecting text color: " ++ "bad file"]) :=
  detector_failure_defaults_dark.1 (fun _ => .error "bad file") "img.png"
    "bad file" rfl

/-! ### Claim C6: preprocessing failure policy -/

/-- Claim C6: if any preprocessing step fails, `preprocess_image` returns
the original source path as the degenerate Enhanced variant, an absent
Inverted variant and ColorBias `false` (DarkTextOnLight); the failure
description goes to the stderr channel, and (provided the engine does not
raise) the stdout payload still contains no error object. -/
theorem preprocess_failure_degenerate (ops : ImgOps)
    (engine : PathStr → Except String PyOCRResult)
    (fs : FS) (src : PathStr) (mw mh : Int) (e : String)
    (hfail : (preprocess_core ops fs src mw mh).1 = .error e) :
    (preprocess_image ops fs src mw mh).1 = (src, none, false) ∧
    ("Error preprocessing image: " ++ e) ∈
      (preprocess_image ops fs src mw mh).2.2 ∧
    (engineTotal engine →
      ∀ o ∈ (process_image ops engine fs src mw mh).stdout,
        o.isError = false) := by
  refine ⟨?_, ?_, fun htot => process_stdout_no_error ops engine fs src mw mh htot⟩
  all_goals
    unfold preprocess_image
    rcases hc : preprocess_core ops fs src mw mh with ⟨ex, fs1, w⟩
    rw [hc] at hfail
    have hex : ex = .error e := hfail
    subst hex
  · rfl
  · simp

/-- Concrete image primitives whose load step fails. -/
def cOpsFail : ImgOps := { cOps with openImg := fun _ => .error "corrupt" }

/-- Witness for C6: with a failing loader, the degenerate triple is
returned and the failure lands on stderr. -/
theorem preprocess_failure_degenerate_witness :
    (preprocess_image cOpsFail (fun _ => none) "img.png" 1600 1600).1
      = ("img.png", none, false) ∧
    ("Error preprocessing image: " ++ "corrupt") ∈
      (preprocess_image cOpsFail (fun _ => none) "img.png" 1600 1600).2.2 :=
  ⟨(preprocess_failure_degenerate cOpsFail (fun _ => .ok none)
      (fun _ => none) "img.png" 1600 1600 "corrupt" rfl).1,
   (preprocess_failure_degenerate cOpsFail (fun _ => .ok none)
      (fun _ => none) "img.png" 1600 1600 "corrupt" rfl).2.1⟩

/-! ### Claim C7: the resize policy -/

/-- Claim C7: when both dimensions are within the bounds no resampling is
performed (the resize stage returns the image unchanged, never calling the
resize primitive); when a dimension exceeds its bound, both dimensions are
scaled by the single factor `min(max_width/width, max_height/height)` and
floored, and the results satisfy both bounds. -/
theorem resize_bounds_policy (w h : Nat) (mw mh : Int)
    (hw : 0 < w) (hh : 0 < h) (hmw : 0 < mw) (hmh : 0 < mh) :
    ((w : Int) ≤ mw ∧ (h : Int) ≤ mh → targetDims w h mw mh = (w, h)) ∧
    ((w : Int) > mw ∨ (h : Int) > mh →
      targetDims w h mw mh =
        (⌊(w : ℚ) * min ((mw : ℚ) / (w : ℚ)) ((mh : ℚ) / (h : ℚ))⌋.toNat,
         ⌊(h : ℚ) * min ((mw : ℚ) / (w : ℚ)) ((mh : ℚ) / (h : ℚ))⌋.toNat) ∧
      ((targetDims w h mw mh).1 : Int) ≤ mw ∧
      ((targetDims w h mw mh).2 : Int) ≤ mh) ∧
    (∀ (ops : ImgOps) (img : Image), img.width = w → img.height = h →
      (w : Int) ≤ mw → (h : Int) ≤ mh →
      resizeStep ops img mw mh = .ok img) := by
  have h0w : (0 : ℚ) < (w : ℚ) := by exact_mod_cast hw
  have h0h : (0 : ℚ) < (h : ℚ) := by exact_mod_cast hh
  have h0mw : (0 : ℚ) < (mw : ℚ) := by exact_mod_cast hmw
  have h0mh : (0 : ℚ) < (mh : ℚ) := by exact_mod_cast hmh
  have hrpos : 0 < min ((mw : ℚ) / (w : ℚ)) ((mh : ℚ) / (h : ℚ)) :=
    lt_min (div_pos h0mw h0w) (div_pos h0mh h0h)
  have hboundW : ⌊(w : ℚ) * min ((mw : ℚ) / (w : ℚ)) ((mh : ℚ) / (h : ℚ))⌋ ≤ mw := by
    have h1 : (w : ℚ) * min ((mw : ℚ) / (w : ℚ)) ((mh : ℚ) / (h : ℚ))
        ≤ (w : ℚ) * ((mw : ℚ) / (w : ℚ)) :=
      mul_le_mul_of_nonneg_left (min_le_left _ _) (le_of_lt h0w)
    have h2 : (w : ℚ) * ((mw : ℚ) / (w : ℚ)) = (mw : ℚ) := by
      field_simp
    have h3 := Int.floor_mono (le_of_eq_of_le (Eq.refl _) (h2 ▸ h1))
    rwa [Int.floor_intCast] at h3
  have hboundH : ⌊(h : ℚ) * min ((mw : ℚ) / (w : ℚ)) ((mh : ℚ) / (h : ℚ))⌋ ≤ mh := by
    have h1 : (h : ℚ) * min ((mw : ℚ) / (w : ℚ)) ((mh : ℚ) / (h : ℚ))
        ≤ (h : ℚ) * ((mh : ℚ) / (h : ℚ)) :=
      mul_le_mul_of_nonneg_left (min_le_right _ _) (le_of_lt h0h)
    have h2 : (h : ℚ) * ((mh : ℚ) / (h : ℚ)) = (mh : ℚ) := by
      field_simp
    have h3 := Int.floor_mono (le_of_eq_of_le (Eq.refl _) (h2 ▸ h1))
    rwa [Int.floor_intCast] at h3
  have hnnW : 0 ≤ ⌊(w : ℚ) * min ((mw : ℚ) / (w : ℚ)) ((mh : ℚ) / (h : ℚ))⌋ :=
    Int.floor_nonneg.mpr (le_of_lt (mul_pos h0w hrpos))
  have hnnH : 0 ≤ ⌊(h : ℚ) * min ((mw : ℚ) / (w : ℚ)) ((mh : ℚ) / (h : ℚ))⌋ :=
    Int.floor_nonneg.mpr (le_of_lt (mul_pos h0h hrpos))
  refine ⟨?_, ?_, ?_⟩
  · intro hin
    unfold targetDims
    rw [if_neg (by omega)]
  · intro hex
    have heq : targetDims w h mw mh =
        (⌊(w : ℚ) * min ((mw : ℚ) / (w : ℚ)) ((mh : ℚ) / (h : ℚ))⌋.toNat,
         ⌊(h : ℚ) * min ((mw : ℚ) / (w : ℚ)) ((mh : ℚ) / (h : ℚ))⌋.toNat) := by
      unfold targetDims
      rw [if_pos hex]
    refine ⟨heq, ?_, ?_⟩
    · rw [heq]
      show ((Int.toNat _ : Nat) : Int) ≤ mw
      rw [Int.toNat_of_nonneg hnnW]
      exact hboundW
    · rw [heq]
      show ((Int.toNat _ : Nat) : Int) ≤ mh
      rw [Int.toNat_of_nonneg hnnH]
      exact hboundH
  · intro ops img hiw hih h1 h2
    unfold resizeStep
    rw [if_neg (by omega)]

/-- Witness for C7: a 100 by 50 image is left untouched by 1600 by 1600
bounds. -/
theorem resize_bounds_policy_witness :
    targetDims 100 50 1600 1600 = (100, 50) :=
  (resize_bounds_policy 100 50 1600 1600 (by decide) (by decide)
    (by decide) (by decide)).1 (by decide)

/-! ### Claim C8: command-line argument policy -/

/-- Claim C8: a missing image-path argument yields exactly the one-element
error payload and exit status 1; any invocation with a path exits with
status 0, whatever the other arguments are; an unparsable size argument
silently leaves the bound at its default 1600. -/
theorem cli_argument_policy (parse : String → Option Int) (ops : ImgOps)
    (engine : PathStr → Except String PyOCRResult) (fs : FS)
    (argv : List String) :
    (argv.length < 2 →
      main_run parse ops engine fs argv =
        ⟨[.failure "No image path provided"], 1, fs, []⟩) ∧
    (2 ≤ argv.length → (main_run parse ops engine fs argv).exitCode = 0) ∧
    (∀ i s, argv[i]? = some s → parse s = none →
      effBound parse argv i = 1600) := by
  refine ⟨?_, ?_, ?_⟩
  · intro hlt
    unfold main_run
    rw [if_pos hlt]
  · intro hge
    unfold main_run
    rw [if_neg (by omega)]
  · intro i s hget hparse
    unfold effBound
    rw [hget]
    simp [hparse]

/-- A concrete integer parser that accepts nothing (every argument is
unparsable for it). -/
def cParse : String → Option Int := fun _ => none

/-- Witness for C8: no arguments gives the error payload and exit 1; with
a path and an unparsable width, the run exits 0 and the bound stays
1600. -/
theorem cli_argument_policy_witness :
    main_run cParse cOps (fun _ => .ok (some none)) (fun _ => none)
        ["prog"] =
      ⟨[.failure "No image path provided"], 1, (fun _ => none), []⟩ ∧
    (main_run cParse cOps (fun _ => .ok (some none)) (fun _ => none)
        ["prog", "img.png", "abc"]).exitCode = 0 ∧
    effBound cParse ["prog", "img.png", "abc"] 2 = 1600 :=
  ⟨(cli_argument_policy cParse cOps (fun _ => .ok (some none))
      (fun _ => none) ["prog"]).1 (by decide),
   (cli_argument_policy cParse cOps (fun _ => .ok (some none))
      (fun _ => none) ["prog", "img.png", "abc"]).2.1 (by decide),
   (cli_argument_policy cParse cOps (fun _ => .ok (some none))
      (fun _ => none) ["prog", "img.png", "abc"]).2.2 2 "abc" rfl rfl⟩

end OCRPipeline
